import Mathlib

/-!
Verification of the offline-first score synchronization subsystem of
ExamTracker: the `StorageManager` (localStorage schema, TTL cache, offline
queue) and the `ApiClient` (retry with backoff, offline fallback, sync
merge).  JavaScript objects are embedded as association lists with
assignment semantics (assignment replaces the value at an existing key in
place, otherwise appends); localStorage keys that may be absent are
embedded as `Option`; instants are milliseconds since epoch (`Nat`).
JSON serialization round-trips faithfully on the values stored here, so
storage is modelled at the parsed level.
-/

set_option autoImplicit false

namespace ExamTracker

/-! ## JavaScript object model -/

/-- Property assignment on a JS object: replace in place, else append. -/
def objSet {α : Type} (m : List (String × α)) (k : String) (v : α) :
    List (String × α) :=
  match m with
  | [] => [(k, v)]
  | (k', v') :: rest =>
      if k' = k then (k', v) :: rest else (k', v') :: objSet rest k v

/-- Property lookup on a JS object. -/
def objGet {α : Type} (m : List (String × α)) (k : String) : Option α :=
  match m with
  | [] => none
  | (k', v') :: rest => if k' = k then some v' else objGet rest k

/-- The `delete` operator on a JS object. -/
def objDelete {α : Type} (m : List (String × α)) (k : String) :
    List (String × α) :=
  m.filter (fun p => p.1 ≠ k)

@[simp] theorem objGet_nil {α : Type} (k : String) :
    objGet ([] : List (String × α)) k = none := rfl

theorem objGet_objSet_self {α : Type} (m : List (String × α)) (k : String)
    (v : α) : objGet (objSet m k v) k = some v := by
  induction m with
  | nil => simp [objSet, objGet]
  | cons p rest ih =>
      obtain ⟨k', v'⟩ := p
      by_cases h : k' = k
      · simp [objSet, objGet, h]
      · simp [objSet, objGet, h, ih]

theorem objGet_objSet_ne {α : Type} (m : List (String × α)) (k k' : String)
    (v : α) (h : k' ≠ k) : objGet (objSet m k v) k' = objGet m k' := by
  induction m with
  | nil => simp [objSet, objGet, Ne.symm h]
  | cons p rest ih =>
      obtain ⟨k0, v0⟩ := p
      by_cases h0 : k0 = k
      · subst h0
        simp [objSet, objGet, Ne.symm h]
      · simp [objSet, objGet, h0, ih]

/-- Assigning the value a key already holds leaves the object unchanged. -/
theorem objSet_of_objGet_eq {α : Type} (m : List (String × α)) (k : String)
    (v : α) (h : objGet m k = some v) : objSet m k v = m := by
  induction m with
  | nil => simp [objGet] at h
  | cons p rest ih =>
      obtain ⟨k', v'⟩ := p
      by_cases hk : k' = k
      · subst hk
        simp [objGet] at h
        simp [objSet, h]
      · simp [objGet, hk] at h
        simp [objSet, hk, ih h]

/-! ## Data model -/

/-- A settings value (`Record<string, any>` entries; JSON scalar). -/
inductive SettingValue where
  | str : String → SettingValue
  | num : Int → SettingValue
  | boolean : Bool → SettingValue
deriving DecidableEq, Repr

/-- Payload of a `save_score` queued operation. -/
structure ScoreAction where
  userId : String
  paperId : String
  questionId : Nat
  score : Nat
  maxScore : Nat
deriving DecidableEq, Repr

/-- Payload of a `bulk_save` queued operation (`BulkScoreUpdate`). -/
structure BulkData where
  userId : String
  paperId : String
  scores : List (Nat × Nat × Nat)
deriving DecidableEq, Repr

/-- The `type` tag and payload of an offline action. -/
inductive OfflineAction where
  | save_score : ScoreAction → OfflineAction
  | bulk_save : BulkData → OfflineAction
deriving DecidableEq, Repr

/-- A queue entry: the action plus the enqueue timestamp that
`queueOfflineAction` spreads in. -/
structure QueuedAction where
  act : OfflineAction
  timestamp : Nat
deriving DecidableEq, Repr

/-- The data field of a cache item: either the offline queue or some
cached API payload (kept as an abstract numeric tag). -/
inductive CacheData where
  | queue : List QueuedAction → CacheData
  | payload : Nat → CacheData
deriving DecidableEq, Repr

/-- One entry of the `examtracker_cache` map. -/
structure CacheItem where
  data : CacheData
  timestamp : Nat
  expires : Option Nat
deriving DecidableEq, Repr

/-- The localStorage keys managed by `StorageManager`, at the parsed level.
`none` means the key is absent from localStorage. -/
structure Store where
  userId : Option String
  userMarks : Option (List (String × Nat))
  settings : Option (List (String × SettingValue))
  cache : Option (List (String × CacheItem))
  lastSync : Option Nat
deriving DecidableEq, Repr

/-! ## StorageManager: localStorage management -/

def getUserId (s : Store) : Option String := s.userId

def setUserId (u : String) (s : Store) : Store := { s with userId := some u }

/-- Absent or unparsable marks degrade to the empty object. -/
def getUserMarks (s : Store) : List (String × Nat) := s.userMarks.getD []

def setUserMarks (m : List (String × Nat)) (s : Store) : Store :=
  { s with userMarks := some m }

def updateUserMark (k : String) (score : Nat) (s : Store) : Store :=
  setUserMarks (objSet (getUserMarks s) k score) s

def getSettings (s : Store) : List (String × SettingValue) := s.settings.getD []

def setSetting (k : String) (v : SettingValue) (s : Store) : Store :=
  { s with settings := some (objSet (getSettings s) k v) }

def getLastSyncTime (s : Store) : Option Nat := s.lastSync

def setLastSyncTime (time : Nat) (s : Store) : Store :=
  { s with lastSync := some time }

/-! ## StorageManager: cache management -/

/-- `removeFromCache`: parse (absent parses as the empty object), delete the
key, write back. -/
def removeFromCache (k : String) (s : Store) : Store :=
  { s with cache := some (objDelete (s.cache.getD []) k) }

/-- `getCache` at instant `now`: returns the stored data, evicting an
expired entry as a side effect.  Returns the (possibly updated) store. -/
def getCache (k : String) (now : Nat) (s : Store) : Option CacheData × Store :=
  match s.cache with
  | none => (none, s)
  | some cacheData =>
      match objGet cacheData k with
      | none => (none, s)
      | some item =>
          match item.expires with
          | some e =>
              if now > e then (none, removeFromCache k s)
              else (some item.data, s)
          | none => (some item.data, s)

/-- `setCache` at instant `now`; `expiresInMs` maps to an absolute expiry.
(The source also reads the settings into an unused local variable, a no-op
on the store.) -/
def setCache (k : String) (d : CacheData) (expiresInMs : Option Nat)
    (now : Nat) (s : Store) : Store :=
  { s with
    cache := some (objSet (s.cache.getD []) k
      ⟨d, now, expiresInMs.map (fun ms => now + ms)⟩) }

def clearCache (s : Store) : Store := { s with cache := none }

/-- Removes every managed key. -/
def clearAllData (_s : Store) : Store := ⟨none, none, none, none, none⟩

/-- Claim C6 helper: the cache map of a store after an operation. -/
def cacheMap (s : Store) : List (String × CacheItem) := s.cache.getD []

/-! ## StorageManager: offline support -/

/-- The `getCache("offline_queue") || []` read: absent data defaults to the
empty queue.  Only values of the `queue` form are ever written under the
queue key, so the non-queue fallback is unreachable in runs of this code. -/
def asQueue : Option CacheData → List QueuedAction
  | some (CacheData.queue q) => q
  | _ => []

/-- Appends the action, stamped with the enqueue instant, to the queue held
in the cache under the key `offline_queue` (no expiry). -/
def queueOfflineAction (a : OfflineAction) (now : Nat) (s : Store) : Store :=
  let read := getCache "offline_queue" now s
  let queue := asQueue read.1
  setCache "offline_queue" (CacheData.queue (queue ++ [⟨a, now⟩])) none now
    read.2

/-- Updates the mark under the composite key immediately, then queues a
`save_score` operation for later replay. -/
def saveScoreOffline (userId paperId : String)
    (questionId score maxScore : Nat) (now : Nat) (s : Store) : Store :=
  let key := paperId ++ "-" ++ toString questionId
  let s1 := updateUserMark key score s
  queueOfflineAction
    (OfflineAction.save_score ⟨userId, paperId, questionId, score, maxScore⟩)
    now s1

/-- One drain pass over the queue starting at index `i`: returns the actions
replayed against the remote and the indices pushed onto `processed`.
`oracle i` stands for the success flag of the ApiResponse that the replay of
entry `i` returns; the source discards this response, and `saveScore` and
`saveBulkScores` never throw (`makeRequest` catches every error internally
and returns a response object), so the catch branch of the loop body never
fires and every index whose action type the switch handles is pushed. -/
def drainLoop (oracle : Nat → Bool) :
    List QueuedAction → Nat → List QueuedAction × List Nat
  | [], _ => ([], [])
  | a :: rest, i =>
      let _resp := oracle i
      let tail := drainLoop oracle rest (i + 1)
      match a.act with
      | OfflineAction.save_score _ => (a :: tail.1, i :: tail.2)
      | OfflineAction.bulk_save _ => (a :: tail.1, i :: tail.2)

/-- Result of `processOfflineQueue`: the updated store, the actions sent to
the remote, and the `processed` index list. -/
structure DrainResult where
  store : Store
  sent : List QueuedAction
  processed : List Nat
deriving DecidableEq, Repr

/-- `processOfflineQueue`: no-op when offline; otherwise replays the queue
in FIFO order and rewrites it to the entries whose index was not pushed
onto `processed`. -/
def processOfflineQueue (online : Bool) (oracle : Nat → Bool) (now : Nat)
    (s : Store) : DrainResult :=
  if !online then ⟨s, [], []⟩
  else
    let read := getCache "offline_queue" now s
    let queue := asQueue read.1
    if queue.length = 0 then ⟨read.2, [], []⟩
    else
      let res := drainLoop oracle queue 0
      let remaining :=
        (queue.enum.filter (fun p => !(res.2.contains p.1))).map Prod.snd
      ⟨setCache "offline_queue" (CacheData.queue remaining) none now read.2,
       res.1, res.2⟩

/-- The queue as recoverable from the store (empty when absent). -/
def storedQueue (s : Store) : List QueuedAction :=
  match s.cache with
  | none => []
  | some c =>
      match objGet c "offline_queue" with
      | some item =>
          match item.data with
          | CacheData.queue q => q
          | _ => []
      | none => []

/-- Well-formedness maintained by every queue write: the cache item under
`offline_queue`, when present, has no expiry and holds a queue. -/
def queueWF (s : Store) : Bool :=
  match s.cache with
  | none => true
  | some c =>
      match objGet c "offline_queue" with
      | none => true
      | some item =>
          item.expires.isNone &&
            (match item.data with
             | CacheData.queue _ => true
             | _ => false)

end ExamTracker

namespace ExamTracker

theorem objGet_objDelete_self {α : Type} (m : List (String × α))
    (k : String) : objGet (objDelete m k) k = none := by
  induction m with
  | nil => rfl
  | cons p rest ih =>
      obtain ⟨k', v'⟩ := p
      by_cases hk : k' = k
      · simpa [objDelete, hk] using ih
      · simpa [objDelete, objGet, hk] using ih

/-- Claim C6: a cache entry stored by setCache with ttlMs = 1000 at time T
is returned for a read at T + 999, and a read at T + 1001 returns null and
evicts the entry from the cache. -/
theorem getCache_ttl_window (s : Store) (k : String) (d : CacheData)
    (T : Nat) :
    (getCache k (T + 999) (setCache k d (some 1000) T s)).1 = some d ∧
    (getCache k (T + 1001) (setCache k d (some 1000) T s)).1 = none ∧
    objGet (cacheMap (getCache k (T + 1001) (setCache k d (some 1000) T s)).2)
      k = none := by
  have hget :
      objGet (objSet (s.cache.getD []) k
        (⟨d, T, some (T + 1000)⟩ : CacheItem)) k =
      some ⟨d, T, some (T + 1000)⟩ :=
    objGet_objSet_self _ _ _
  have h1 : ¬ (T + 999 > T + 1000) := by omega
  have h2 : T + 1001 > T + 1000 := by omega
  refine ⟨?_, ?_, ?_⟩ <;>
    simp [getCache, setCache, cacheMap, removeFromCache, hget, h1, h2,
      objGet_objDelete_self]

/-! ## Queue lemmas -/

theorem getCache_userMarks (k : String) (now : Nat) (s : Store) :
    (getCache k now s).2.userMarks = s.userMarks := by
  unfold getCache removeFromCache
  repeat' split
  all_goals rfl

theorem getCache_queue_snd (s : Store) (now : Nat) (h : queueWF s = true) :
    (getCache "offline_queue" now s).2 = s := by
  unfold getCache
  unfold queueWF at h
  cases hc : s.cache with
  | none => simp [hc]
  | some c =>
      simp only [hc] at h ⊢
      cases hq : objGet c "offline_queue" with
      | none => simp [hq]
      | some item =>
          simp only [hq, Bool.and_eq_true] at h ⊢
          obtain ⟨h1, _⟩ := h
          have hexp : item.expires = none := Option.isNone_iff_eq_none.mp h1
          simp [hexp]

theorem asQueue_getCache (s : Store) (now : Nat) (h : queueWF s = true) :
    asQueue (getCache "offline_queue" now s).1 = storedQueue s := by
  unfold getCache storedQueue
  unfold queueWF at h
  cases hc : s.cache with
  | none => simp [hc, asQueue]
  | some c =>
      simp only [hc] at h ⊢
      cases hq : objGet c "offline_queue" with
      | none => simp [hq, asQueue]
      | some item =>
          simp only [hq, Bool.and_eq_true] at h ⊢
          obtain ⟨h1, h2⟩ := h
          have hexp : item.expires = none := Option.isNone_iff_eq_none.mp h1
          cases hd : item.data with
          | queue q => simp [hexp, hd, asQueue]
          | payload n => rw [hd] at h2; simp at h2

theorem processOfflineQueue_userMarks (online : Bool) (oracle : Nat → Bool)
    (now : Nat) (s : Store) :
    (processOfflineQueue online oracle now s).store.userMarks =
      s.userMarks := by
  unfold processOfflineQueue
  split
  · rfl
  · dsimp only
    split
    · exact getCache_userMarks _ _ _
    · show (getCache "offline_queue" now s).2.userMarks = s.userMarks
      exact getCache_userMarks _ _ _

theorem queueOfflineAction_userMarks (s : Store) (a : OfflineAction)
    (now : Nat) :
    (queueOfflineAction a now s).userMarks = s.userMarks := by
  unfold queueOfflineAction
  dsimp only
  show (getCache "offline_queue" now s).2.userMarks = s.userMarks
  exact getCache_userMarks _ _ _

theorem storedQueue_setCache_queue (s : Store) (q : List QueuedAction)
    (now : Nat) :
    storedQueue (setCache "offline_queue" (CacheData.queue q) none now s)
      = q ∧
    queueWF (setCache "offline_queue" (CacheData.queue q) none now s)
      = true := by
  unfold storedQueue queueWF setCache
  simp only [Option.map]
  rw [objGet_objSet_self]
  exact ⟨rfl, rfl⟩

theorem storedQueue_queueOfflineAction (s : Store) (a : OfflineAction)
    (now : Nat) (h : queueWF s = true) :
    objGet (cacheMap (queueOfflineAction a now s)) "offline_queue" =
      some ⟨CacheData.queue (storedQueue s ++ [⟨a, now⟩]), now, none⟩ := by
  unfold queueOfflineAction
  dsimp only
  rw [asQueue_getCache s now h, getCache_queue_snd s now h]
  exact objGet_objSet_self _ _ _

theorem queueOfflineAction_spec (s : Store) (a : OfflineAction) (now : Nat)
    (h : queueWF s = true) :
    storedQueue (queueOfflineAction a now s) = storedQueue s ++ [⟨a, now⟩] ∧
    queueWF (queueOfflineAction a now s) = true := by
  unfold queueOfflineAction
  dsimp only
  rw [asQueue_getCache s now h, getCache_queue_snd s now h]
  exact storedQueue_setCache_queue s _ now

/-- Claim C1 (code bug): draining the queue `[A, B, C]` while online, where
the remote accepts A and C but rejects B (replay responses succeed at
indices 0 and 2 and fail at index 1), removes all three entries: the queue
after one pass is `[]`, not `[B]`.  The loop pushes every attempted index
onto `processed` right after the replay returns, without consulting the
success flag of the response, and the replay never throws. -/
theorem processOfflineQueue_discards_rejected :
    (processOfflineQueue true (fun i => i != 1) 5
        ⟨none, none, none,
         some [("offline_queue",
           ⟨CacheData.queue
             [⟨OfflineAction.save_score ⟨"u", "p1", 1, 8, 10⟩, 0⟩,
              ⟨OfflineAction.save_score ⟨"u", "p1", 2, 5, 10⟩, 1⟩,
              ⟨OfflineAction.save_score ⟨"u", "p2", 3, 7, 10⟩, 2⟩],
            0, none⟩)],
         none⟩).store.cache =
      some [("offline_queue", ⟨CacheData.queue [], 5, none⟩)] := by
  rfl

/-- Claim C9: the pending offline queue is held inside the cache map under
the cache key `offline_queue`; hence `clearCache` (and `clearAllData`)
deletes every queued operation, and a subsequent `processOfflineQueue`
replays nothing and leaves the store unchanged. -/
theorem offline_queue_lives_in_cache (s : Store) (a : OfflineAction)
    (now : Nat) (online : Bool) (oracle : Nat → Bool)
    (h : queueWF s = true) :
    objGet (cacheMap (queueOfflineAction a now s)) "offline_queue" =
      some ⟨CacheData.queue (storedQueue s ++ [⟨a, now⟩]), now, none⟩ ∧
    storedQueue (clearCache s) = [] ∧
    (clearCache s).cache = none ∧
    storedQueue (clearAllData s) = [] ∧
    processOfflineQueue online oracle now (clearCache s) =
      ⟨clearCache s, [], []⟩ ∧
    processOfflineQueue online oracle now (clearAllData s) =
      ⟨clearAllData s, [], []⟩ := by
  refine ⟨storedQueue_queueOfflineAction s a now h, rfl, rfl, rfl, ?_, ?_⟩
  · cases online <;> rfl
  · cases online <;> rfl

/-- Witness for claim C9 at a concrete store and action. -/
theorem offline_queue_lives_in_cache_witness :
    queueWF (⟨none, none, none, none, none⟩ : Store) = true ∧
    objGet (cacheMap (queueOfflineAction
        (OfflineAction.save_score ⟨"u", "p", 1, 2, 3⟩) 7
        ⟨none, none, none, none, none⟩)) "offline_queue" =
      some ⟨CacheData.queue
        [⟨OfflineAction.save_score ⟨"u", "p", 1, 2, 3⟩, 7⟩], 7, none⟩ :=
  ⟨rfl,
   (offline_queue_lives_in_cache ⟨none, none, none, none, none⟩
      (OfflineAction.save_score ⟨"u", "p", 1, 2, 3⟩) 7 true
      (fun _ => false) rfl).1⟩

/-! ## ApiClient: configuration, responses, makeRequest -/

/-- Recognized ApiClient options with their defaults. -/
structure ApiConfig where
  baseUrl : String
  timeout : Nat := 10000
  retries : Nat := 3
  retryDelay : Nat := 1000
  enableOfflineQueue : Bool := true
deriving DecidableEq, Repr

/-- The error payload of a failed ApiResponse. -/
structure ApiError where
  message : String
  status : Option Nat := none
  code : Option String := none
deriving DecidableEq, Repr

/-- `ApiResponse<T>`: success flag with data, or an error payload. -/
inductive ApiResponse (α : Type) where
  | ok : α → ApiResponse α
  | fail : ApiError → ApiResponse α
deriving DecidableEq, Repr

def ApiResponse.success {α : Type} : ApiResponse α → Bool
  | .ok _ => true
  | .fail _ => false

/-- A JavaScript exception as the catch block of makeRequest inspects it:
whether its name is AbortError, whether it is a TypeError whose message
mentions fetch, its optional numeric status property, and its message. -/
structure JsException where
  isAbort : Bool
  isTypeErrorFetch : Bool
  status : Option Nat
  message : String
deriving DecidableEq, Repr

/-- Outcome of one fetch attempt: a 2xx response with parsed body, a non-2xx
response (status, parsed error message, optional error code from the body),
or a thrown exception. -/
inductive FetchOutcome (α : Type) where
  | ok : α → FetchOutcome α
  | httpErr : Nat → String → Option String → FetchOutcome α
  | thrown : JsException → FetchOutcome α
deriving Repr

/-- `ApiClient.isRetryableError`: TypeError mentioning fetch, or a status
property of at least 500. -/
def isRetryableError (e : JsException) : Bool :=
  if e.isTypeErrorFetch then true
  else
    match e.status with
    | some st => if 500 ≤ st then true else false
    | none => false

/-- `ApiClient.makeRequest` over the sequence of fetch outcomes (indexed by
retryCount), returning the response and the list of backoff delays awaited
before each retry.  The structural `fuel` equals `retries - retryCount` at
every call, so the zero-fuel retry branch (returning what the
exhausted-retries path returns) is never taken; it only makes the recursion
structural, and the body is otherwise identical in both equations. -/
def makeRequestGo {α : Type} (retries retryDelay : Nat)
    (oracle : Nat → FetchOutcome α) :
    Nat → Nat → ApiResponse α × List Nat
  | 0, retryCount =>
      match oracle retryCount with
      | .ok d => (.ok d, [])
      | .httpErr st msg code => (.fail ⟨msg, some st, code⟩, [])
      | .thrown e =>
          if e.isAbort then
            (.fail ⟨"Request timeout", none, some "TIMEOUT"⟩, [])
          else (.fail ⟨e.message, none, some "NETWORK_ERROR"⟩, [])
  | fuel' + 1, retryCount =>
      match oracle retryCount with
      | .ok d => (.ok d, [])
      | .httpErr st msg code => (.fail ⟨msg, some st, code⟩, [])
      | .thrown e =>
          if e.isAbort then
            (.fail ⟨"Request timeout", none, some "TIMEOUT"⟩, [])
          else if retryCount < retries ∧ isRetryableError e = true then
            let rest :=
              makeRequestGo retries retryDelay oracle fuel' (retryCount + 1)
            (rest.1, retryDelay * 2 ^ retryCount :: rest.2)
          else (.fail ⟨e.message, none, some "NETWORK_ERROR"⟩, [])

def makeRequest {α : Type} (cfg : ApiConfig)
    (oracle : Nat → FetchOutcome α) : ApiResponse α × List Nat :=
  makeRequestGo cfg.retries cfg.retryDelay oracle cfg.retries 0

theorem makeRequestGo_delays_length {α : Type} (retries retryDelay : Nat)
    (oracle : Nat → FetchOutcome α) :
    ∀ fuel rc,
      (makeRequestGo retries retryDelay oracle fuel rc).2.length ≤ fuel := by
  intro fuel
  induction fuel with
  | zero =>
      intro rc
      cases ho : oracle rc with
      | ok d => simp [makeRequestGo, ho]
      | httpErr st msg code => simp [makeRequestGo, ho]
      | thrown e =>
          by_cases ha : e.isAbort
          · simp [makeRequestGo, ho, ha]
          · simp [makeRequestGo, ho, ha]
  | succ fuel' ih =>
      intro rc
      cases ho : oracle rc with
      | ok d => simp [makeRequestGo, ho]
      | httpErr st msg code => simp [makeRequestGo, ho]
      | thrown e =>
          by_cases ha : e.isAbort
          · simp [makeRequestGo, ho, ha]
          · by_cases hr : rc < retries ∧ isRetryableError e = true
            · simp only [makeRequestGo, ho, if_neg ha, if_pos hr,
                List.length_cons]
              exact Nat.succ_le_succ (ih (rc + 1))
            · simp [makeRequestGo, ho, ha, hr]

theorem makeRequestGo_delays_get {α : Type} (retries retryDelay : Nat)
    (oracle : Nat → FetchOutcome α) :
    ∀ fuel rc n d,
      (makeRequestGo retries retryDelay oracle fuel rc).2.get? n = some d →
      d = retryDelay * 2 ^ (rc + n) := by
  intro fuel
  induction fuel with
  | zero =>
      intro rc n d hd
      cases ho : oracle rc with
      | ok x => simp [makeRequestGo, ho] at hd
      | httpErr st msg code => simp [makeRequestGo, ho] at hd
      | thrown e =>
          by_cases ha : e.isAbort
          · simp [makeRequestGo, ho, ha] at hd
          · simp [makeRequestGo, ho, ha] at hd
  | succ fuel' ih =>
      intro rc n d hd
      cases ho : oracle rc with
      | ok x => simp [makeRequestGo, ho] at hd
      | httpErr st msg code => simp [makeRequestGo, ho] at hd
      | thrown e =>
          by_cases ha : e.isAbort
          · simp [makeRequestGo, ho, ha] at hd
          · by_cases hr : rc < retries ∧ isRetryableError e = true
            · simp only [makeRequestGo, ho, if_neg ha, if_pos hr] at hd
              cases n with
              | zero =>
                  simp only [List.get?] at hd
                  have hdv : d = retryDelay * 2 ^ rc := by
                    cases hd
                    rfl
                  rw [hdv, Nat.add_zero]
              | succ n' =>
                  have hrest :
                      (makeRequestGo retries retryDelay oracle fuel'
                        (rc + 1)).2.get? n' = some d := by
                    simpa using hd
                  have hv := ih (rc + 1) n' d hrest
                  have heq : rc + 1 + n' = rc + (n' + 1) := by omega
                  rw [hv, heq]
            · simp [makeRequestGo, ho, ha, hr] at hd

/-- Claim C4 (code bug): an HTTP 500 response is not retried.  With the
default configuration (retries = 3) and every fetch attempt resolving to an
HTTP 500 response, makeRequest returns the HTTP error from the first
attempt with no backoff delay.  Non-2xx responses are returned from the
not-response-ok branch and never thrown, so isRetryableError, whose 5xx
branch would classify them as retryable, never sees them. -/
theorem makeRequest_http500_not_retried :
    makeRequest (α := Unit) { baseUrl := "https://api.example.com" }
      (fun _ => FetchOutcome.httpErr 500 "Internal Server Error" none) =
    (ApiResponse.fail ⟨"Internal Server Error", some 500, none⟩, []) := rfl

/-- Claim C8: with retryDelay = 1000, the wait before retry attempt n
(0-indexed) is 1000 * 2^n milliseconds, and no more than the configured
retries count of retries occur (each retry awaits exactly one delay, so
the delay list has one element per retry). -/
theorem makeRequest_backoff {α : Type} (cfg : ApiConfig)
    (oracle : Nat → FetchOutcome α) (h : cfg.retryDelay = 1000) :
    (makeRequest cfg oracle).2.length ≤ cfg.retries ∧
    ∀ n d, (makeRequest cfg oracle).2.get? n = some d →
      d = 1000 * 2 ^ n := by
  constructor
  · exact makeRequestGo_delays_length cfg.retries cfg.retryDelay oracle
      cfg.retries 0
  · intro n d hd
    have hv := makeRequestGo_delays_get cfg.retries cfg.retryDelay oracle
      cfg.retries 0 n d hd
    rw [hv, h, Nat.zero_add]

/-- Witness for claim C8: the default configuration with every attempt
throwing a retryable network error yields the delays 1000, 2000, 4000. -/
theorem makeRequest_backoff_witness :
    ({ baseUrl := "b" } : ApiConfig).retryDelay = 1000 ∧
    (makeRequest ({ baseUrl := "b" } : ApiConfig)
        (fun _ =>
          FetchOutcome.thrown (α := Unit)
            ⟨false, true, none, "net down"⟩)).2.length ≤
      ({ baseUrl := "b" } : ApiConfig).retries ∧
    2000 = 1000 * 2 ^ 1 :=
  ⟨rfl,
   (makeRequest_backoff (α := Unit) ({ baseUrl := "b" } : ApiConfig)
      (fun _ => FetchOutcome.thrown ⟨false, true, none, "net down"⟩) rfl).1,
   (makeRequest_backoff (α := Unit) ({ baseUrl := "b" } : ApiConfig)
      (fun _ => FetchOutcome.thrown ⟨false, true, none, "net down"⟩) rfl).2
     1 2000 rfl⟩

/-! ## ApiClient: saveScore and saveBulkScores -/

/-- `ApiClient.saveScore`: while offline with the queue enabled it
short-circuits to `saveScoreOffline` and returns a synthetic success whose
id is `offline`; otherwise the makeRequest outcome `net` is returned as is,
after also enqueueing via `saveScoreOffline` when the request failed and
the queue is enabled.  The response body is modelled by its id field. -/
def saveScore (enableOfflineQueue online : Bool) (net : ApiResponse String)
    (userId paperId : String) (questionId score maxScore : Nat) (now : Nat)
    (s : Store) : ApiResponse String × Store :=
  if ¬online ∧ enableOfflineQueue then
    (.ok "offline",
     saveScoreOffline userId paperId questionId score maxScore now s)
  else
    let result := net
    if result.success = false ∧ enableOfflineQueue then
      (result, saveScoreOffline userId paperId questionId score maxScore now s)
    else (result, s)

/-- One item of the scores array passed to `ApiClient.saveBulkScores`. -/
structure BulkScoreItem where
  paperId : String
  questionId : Nat
  score : Nat
  maxScore : Nat
deriving DecidableEq, Repr

/-- Success body of the bulk endpoint: saved count and errors array. -/
structure BulkSaveData where
  saved : Nat
  errors : List String
deriving DecidableEq, Repr

/-- `ApiClient.saveBulkScores`: while offline with the queue enabled, each
score is saved offline individually (forEach over `saveScoreOffline`) and a
synthetic success with saved = scores.length is returned; otherwise the
makeRequest outcome for the bulk endpoint is returned. -/
def saveBulkScores (enableOfflineQueue online : Bool)
    (net : ApiResponse BulkSaveData) (userId : String)
    (scores : List BulkScoreItem) (now : Nat) (s : Store) :
    ApiResponse BulkSaveData × Store :=
  if ¬online ∧ enableOfflineQueue then
    (.ok ⟨scores.length, []⟩,
     scores.foldl (fun st sc =>
       saveScoreOffline userId sc.paperId sc.questionId sc.score sc.maxScore
         now st) s)
  else (net, s)

theorem saveScoreOffline_spec (userId paperId : String)
    (questionId score maxScore now : Nat) (s : Store)
    (h : queueWF s = true) :
    storedQueue
        (saveScoreOffline userId paperId questionId score maxScore now s) =
      storedQueue s ++
        [⟨OfflineAction.save_score
            ⟨userId, paperId, questionId, score, maxScore⟩, now⟩] ∧
    queueWF
        (saveScoreOffline userId paperId questionId score maxScore now s) =
      true := by
  unfold saveScoreOffline
  dsimp only
  exact queueOfflineAction_spec _ _ _ h

theorem storedQueue_foldl_saveScoreOffline (userId : String) (now : Nat) :
    ∀ (scores : List BulkScoreItem) (s : Store), queueWF s = true →
      storedQueue (scores.foldl (fun st sc =>
          saveScoreOffline userId sc.paperId sc.questionId sc.score
            sc.maxScore now st) s) =
        storedQueue s ++ scores.map (fun sc =>
          ⟨OfflineAction.save_score
              ⟨userId, sc.paperId, sc.questionId, sc.score, sc.maxScore⟩,
            now⟩) ∧
      queueWF (scores.foldl (fun st sc =>
          saveScoreOffline userId sc.paperId sc.questionId sc.score
            sc.maxScore now st) s) = true := by
  intro scores
  induction scores with
  | nil =>
      intro s h
      exact ⟨by simp, h⟩
  | cons sc rest ih =>
      intro s h
      have hs := saveScoreOffline_spec userId sc.paperId sc.questionId
        sc.score sc.maxScore now s h
      have hr := ih
        (saveScoreOffline userId sc.paperId sc.questionId sc.score sc.maxScore
          now s) hs.2
      constructor
      · rw [List.foldl_cons, hr.1, hs.1]
        simp
      · rw [List.foldl_cons]
        exact hr.2

/-- Claim C7 (refuted): a bulk save of two scores made while offline with
offline queueing enabled enqueues two individual save_score entries, not a
single bulk_save batch entry. -/
theorem saveBulkScores_offline_two_entries :
    storedQueue (saveBulkScores true false
        (ApiResponse.fail ⟨"unused", none, none⟩) "u"
        [⟨"p1", 1, 8, 10⟩, ⟨"p2", 2, 5, 10⟩] 5
        ⟨none, none, none, none, none⟩).2 =
      [⟨OfflineAction.save_score ⟨"u", "p1", 1, 8, 10⟩, 5⟩,
       ⟨OfflineAction.save_score ⟨"u", "p2", 2, 5, 10⟩, 5⟩] := rfl

/-- Claim C7 (amended): a bulk save of N scores made while offline with
offline queueing enabled appends N individual save_score entries (one per
score, in order) to the queue, and returns a synthetic success with
saved = N; no bulk_save entry is created. -/
theorem saveBulkScores_offline_enqueues_each (net : ApiResponse BulkSaveData)
    (userId : String) (scores : List BulkScoreItem) (now : Nat) (s : Store)
    (h : queueWF s = true) :
    (saveBulkScores true false net userId scores now s).1 =
      ApiResponse.ok ⟨scores.length, []⟩ ∧
    storedQueue (saveBulkScores true false net userId scores now s).2 =
      storedQueue s ++ scores.map (fun sc =>
        ⟨OfflineAction.save_score
            ⟨userId, sc.paperId, sc.questionId, sc.score, sc.maxScore⟩,
          now⟩) := by
  constructor
  · rfl
  · exact (storedQueue_foldl_saveScoreOffline userId now scores s h).1

/-- Witness for the amended claim C7 at a concrete input. -/
theorem saveBulkScores_offline_enqueues_each_witness :
    queueWF (⟨none, none, none, none, none⟩ : Store) = true ∧
    storedQueue (saveBulkScores true false
        (ApiResponse.fail ⟨"unused", none, none⟩) "u"
        [⟨"p1", 1, 8, 10⟩] 9 ⟨none, none, none, none, none⟩).2 =
      storedQueue (⟨none, none, none, none, none⟩ : Store) ++
        [⟨OfflineAction.save_score ⟨"u", "p1", 1, 8, 10⟩, 9⟩] :=
  ⟨rfl,
   (saveBulkScores_offline_enqueues_each
      (ApiResponse.fail ⟨"unused", none, none⟩) "u" [⟨"p1", 1, 8, 10⟩] 9
      ⟨none, none, none, none, none⟩ rfl).2⟩

/-- Claim C3 (refuted): a saveScore made while online with offline queueing
enabled whose network write fails does enqueue the score, but the failed
result is returned to the caller, not a success. -/
theorem saveScore_online_failure_surfaced :
    (saveScore true true
        (ApiResponse.fail ⟨"Network error", none, some "NETWORK_ERROR"⟩)
        "u" "p" 1 8 10 5 ⟨none, none, none, none, none⟩).1 =
      ApiResponse.fail ⟨"Network error", none, some "NETWORK_ERROR"⟩ ∧
    storedQueue (saveScore true true
        (ApiResponse.fail ⟨"Network error", none, some "NETWORK_ERROR"⟩)
        "u" "p" 1 8 10 5 ⟨none, none, none, none, none⟩).2 =
      [⟨OfflineAction.save_score ⟨"u", "p", 1, 8, 10⟩, 5⟩] :=
  ⟨rfl, rfl⟩

/-- Claim C3 (amended): while online, a failed network write enqueues the
score when offline queueing is enabled but still returns the failed result
to the caller; with queueing disabled the failure is surfaced and nothing
is enqueued.  A success response is returned only by the offline
short-circuit path. -/
theorem saveScore_failure_enqueued_but_surfaced (online : Bool)
    (e : ApiError) (userId paperId : String)
    (questionId score maxScore now : Nat) (s : Store)
    (honline : online = true) :
    saveScore true online (ApiResponse.fail e) userId paperId questionId
        score maxScore now s =
      (ApiResponse.fail e,
       saveScoreOffline userId paperId questionId score maxScore now s) ∧
    saveScore false online (ApiResponse.fail e) userId paperId questionId
        score maxScore now s = (ApiResponse.fail e, s) := by
  subst honline
  constructor
  · simp [saveScore, ApiResponse.success]
  · simp [saveScore, ApiResponse.success]

/-- Witness for the amended claim C3 at a concrete input. -/
theorem saveScore_failure_enqueued_but_surfaced_witness :
    (true = true) ∧
    saveScore true true (ApiResponse.fail ⟨"boom", none, none⟩) "u" "p"
        1 8 10 5 ⟨none, none, none, none, none⟩ =
      (ApiResponse.fail ⟨"boom", none, none⟩,
       saveScoreOffline "u" "p" 1 8 10 5 ⟨none, none, none, none, none⟩) :=
  ⟨rfl,
   (saveScore_failure_enqueued_but_surfaced true ⟨"boom", none, none⟩
      "u" "p" 1 8 10 5 ⟨none, none, none, none, none⟩ rfl).1⟩

/-! ## ApiClient: syncData -/

/-- One advisory conflict reported by the sync endpoint. -/
structure SyncConflict where
  key : String
  localValue : Nat
  serverValue : Nat
  timestamp : Nat
deriving DecidableEq, Repr

/-- Body of a successful response of the sync endpoint. -/
structure SyncServerData where
  serverMarks : List (String × Nat)
  conflicts : List SyncConflict
  synced : Nat
deriving DecidableEq, Repr

/-- The SyncResult summary returned on success. -/
structure SyncResult where
  synced : Nat
  conflicts : Nat
  errors : Nat
  lastSync : Nat
deriving DecidableEq, Repr

/-- The object spread of local and server marks: a copy of L with every own
property of S assigned over it, in order (server wins on shared keys). -/
def spreadMarks (L S : List (String × Nat)) : List (String × Nat) :=
  S.foldl (fun acc kv => objSet acc kv.1 kv.2) L

/-- `ApiClient.syncData`: `net` is the outcome of the awaited sync request,
with `Except.error` standing for a promise rejection thrown inside the try
block; the try/finally clears the in-progress flag on every exit path that
entered the try.  Returns the response (or rethrown error), the new flag,
and the store. -/
def syncData (force online : Bool)
    (net : Except String (ApiResponse SyncServerData))
    (oracle : Nat → Bool) (now : Nat) (syncInProgress : Bool) (s : Store) :
    Except String (ApiResponse SyncResult) × Bool × Store :=
  if syncInProgress ∧ ¬force then
    (Except.ok (ApiResponse.fail
       ⟨"Sync already in progress", none, some "SYNC_IN_PROGRESS"⟩),
     syncInProgress, s)
  else
    let localMarks := getUserMarks s
    let _lastSync := getLastSyncTime s
    match net with
    | Except.error e => (Except.error e, false, s)
    | Except.ok (ApiResponse.fail e) =>
        (Except.ok (ApiResponse.fail e), false, s)
    | Except.ok (ApiResponse.ok d) =>
        let resolvedMarks := spreadMarks localMarks d.serverMarks
        let s1 := setUserMarks resolvedMarks s
        let s2 := setLastSyncTime now s1
        let s3 :=
          if online then (processOfflineQueue online oracle now s2).store
          else s2
        (Except.ok (ApiResponse.ok ⟨d.synced, d.conflicts.length, 0, now⟩),
         false, s3)

theorem objGet_eq_none_of_not_mem {α : Type} (m : List (String × α))
    (k : String) (h : k ∉ m.map Prod.fst) : objGet m k = none := by
  induction m with
  | nil => rfl
  | cons p rest ih =>
      simp only [List.map_cons, List.mem_cons, not_or] at h
      obtain ⟨h1, h2⟩ := h
      simp only [objGet, if_neg (Ne.symm h1)]
      exact ih h2

theorem objGet_spreadMarks :
    ∀ (S L : List (String × Nat)) (k : String),
      (S.map Prod.fst).Nodup →
      objGet (spreadMarks L S) k =
        match objGet S k with
        | some v => some v
        | none => objGet L k := by
  intro S
  induction S with
  | nil => intro L k _; rfl
  | cons p rest ih =>
      intro L k hS
      obtain ⟨k0, v0⟩ := p
      simp only [List.map_cons, List.nodup_cons] at hS
      obtain ⟨hnotin, hnd⟩ := hS
      have hstep : spreadMarks L ((k0, v0) :: rest) =
          spreadMarks (objSet L k0 v0) rest := rfl
      rw [hstep, ih (objSet L k0 v0) k hnd]
      by_cases hk : k0 = k
      · subst hk
        have hrest : objGet rest k0 = none :=
          objGet_eq_none_of_not_mem rest k0 hnotin
        simp [objGet, hrest, objGet_objSet_self]
      · simp [objGet, hk,
          objGet_objSet_ne L k0 k v0 (fun hh => hk hh.symm)]

/-- The marks are untouched by the follow-up queue drain of syncData. -/
theorem getUserMarks_queue_step (online : Bool) (oracle : Nat → Bool)
    (now : Nat) (st : Store) :
    getUserMarks
        (if online = true then (processOfflineQueue online oracle now st).store
         else st) =
      getUserMarks st := by
  cases online
  · rfl
  · unfold getUserMarks
    rw [if_pos rfl, processOfflineQueue_userMarks]

/-- Claim C2: a successful syncData stores the merge of local and server
marks with remote winning: for every key, the stored value is the server
value when the key is present server-side, else the local value. -/
theorem syncData_merge_remote_wins (force online flag : Bool)
    (oracle : Nat → Bool) (now : Nat) (d : SyncServerData) (s : Store)
    (hguard : flag = false ∨ force = true)
    (hS : (d.serverMarks.map Prod.fst).Nodup) (k : String) :
    objGet (getUserMarks
        (syncData force online (Except.ok (ApiResponse.ok d)) oracle now
          flag s).2.2) k =
      match objGet d.serverMarks k with
      | some v => some v
      | none => objGet (getUserMarks s) k := by
  unfold syncData
  rw [if_neg (by rcases hguard with h | h <;> simp [h])]
  dsimp only
  rw [getUserMarks_queue_step]
  show objGet (spreadMarks (getUserMarks s) d.serverMarks) k = _
  exact objGet_spreadMarks d.serverMarks (getUserMarks s) k hS

/-- Witness for claim C2: scenario with local marks (p1-1, 5) and server
marks (p1-1, 9), (p1-2, 3): remote wins on the shared key. -/
theorem syncData_merge_remote_wins_witness :
    ((false = false ∨ false = true) ∧
      (([("p1-1", 9), ("p1-2", 3)].map
          (Prod.fst (α := String) (β := Nat))).Nodup)) ∧
    objGet (getUserMarks
        (syncData false true
          (Except.ok (ApiResponse.ok ⟨[("p1-1", 9), ("p1-2", 3)], [], 2⟩))
          (fun _ => true) 50 false
          ⟨none, some [("p1-1", 5)], none, none, none⟩).2.2) "p1-1" =
      match objGet [("p1-1", 9), ("p1-2", 3)] "p1-1" with
      | some v => some v
      | none =>
          objGet (getUserMarks
            (⟨none, some [("p1-1", 5)], none, none, none⟩ : Store)) "p1-1" :=
  ⟨⟨Or.inl rfl, by decide⟩,
   syncData_merge_remote_wins false true false (fun _ => true) 50
     ⟨[("p1-1", 9), ("p1-2", 3)], [], 2⟩
     ⟨none, some [("p1-1", 5)], none, none, none⟩ (Or.inl rfl) (by decide)
     "p1-1"⟩

/-- Claim C5: an overlapping syncData call without force fails with a
SYNC_IN_PROGRESS error leaving flag and store untouched, and every call
that passes the guard clears the in-progress flag before returning, for
every outcome of the network request including a thrown error. -/
theorem syncData_mutex_and_release (force online : Bool)
    (net : Except String (ApiResponse SyncServerData))
    (oracle : Nat → Bool) (now : Nat) (flag : Bool) (s : Store) :
    (flag = true → force = false →
      syncData force online net oracle now flag s =
        (Except.ok (ApiResponse.fail
           ⟨"Sync already in progress", none, some "SYNC_IN_PROGRESS"⟩),
         flag, s)) ∧
    ((flag = false ∨ force = true) →
      (syncData force online net oracle now flag s).2.1 = false) := by
  constructor
  · intro h1 h2
    subst h1
    subst h2
    unfold syncData
    rw [if_pos ⟨rfl, by simp⟩]
  · intro hguard
    unfold syncData
    rw [if_neg (by rcases hguard with h | h <;> simp [h])]
    cases net with
    | error e => rfl
    | ok r =>
        cases r with
        | fail e => rfl
        | ok d => rfl

/-- Witness for claim C5: a rejected overlapping call, and a guarded call
whose network request throws still ends with the flag cleared. -/
theorem syncData_mutex_and_release_witness :
    (true = true ∧ false = false) ∧
    syncData false true (Except.error "boom") (fun _ => true) 3 true
        ⟨none, none, none, none, none⟩ =
      (Except.ok (ApiResponse.fail
         ⟨"Sync already in progress", none, some "SYNC_IN_PROGRESS"⟩),
       true, ⟨none, none, none, none, none⟩) ∧
    (syncData false true (Except.error "boom") (fun _ => true) 3 false
        ⟨none, none, none, none, none⟩).2.1 = false :=
  ⟨⟨rfl, rfl⟩,
   (syncData_mutex_and_release false true (Except.error "boom")
      (fun _ => true) 3 true ⟨none, none, none, none, none⟩).1 rfl rfl,
   (syncData_mutex_and_release false true (Except.error "boom")
      (fun _ => true) 3 false ⟨none, none, none, none, none⟩).2
     (Or.inl rfl)⟩

/-! ## StorageManager: export and import -/

/-- The JSON document produced by `exportData` (serialized with
JSON.stringify; serialization round-trips losslessly on these values, and
the last-sync instant round-trips through toISOString and back). -/
structure ExportDoc where
  userId : Option String
  userMarks : List (String × Nat)
  settings : List (String × SettingValue)
  lastSync : Option Nat
deriving DecidableEq, Repr

def exportData (s : Store) : ExportDoc :=
  ⟨getUserId s, getUserMarks s, getSettings s, getLastSyncTime s⟩

/-- `importData` on a parsed document: JSON.parse of a document produced by
exportData always succeeds, so the catch branch returning false is not
taken on such input.  Each field is applied only when truthy: a null or
empty-string userId is skipped, an absent lastSync is skipped, and the
marks and settings objects are always truthy. -/
def importData (d : ExportDoc) (s : Store) : Bool × Store :=
  let s1 :=
    match d.userId with
    | some u => if u = "" then s else setUserId u s
    | none => s
  let s2 := setUserMarks d.userMarks s1
  let s3 := d.settings.foldl (fun st kv => setSetting kv.1 kv.2 st) s2
  let s4 :=
    match d.lastSync with
    | some t => setLastSyncTime t s3
    | none => s3
  (true, s4)

theorem objGet_mem_of_nodup {α : Type} :
    ∀ (m : List (String × α)), (m.map Prod.fst).Nodup →
      ∀ kv ∈ m, objGet m kv.1 = some kv.2 := by
  intro m
  induction m with
  | nil => intro _ kv hkv; simp at hkv
  | cons p rest ih =>
      intro hnd kv hkv
      simp only [List.map_cons, List.nodup_cons] at hnd
      obtain ⟨hnotin, hnd'⟩ := hnd
      rcases List.mem_cons.mp hkv with rfl | hmem
      · simp [objGet]
      · have hne : ¬ (p.1 = kv.1) := by
          intro h
          exact hnotin (h ▸ List.mem_map_of_mem Prod.fst hmem)
        simp only [objGet, if_neg hne]
        exact ih hnd' kv hmem

theorem foldl_setSetting_self (s : Store)
    (st : List (String × SettingValue)) (hset : s.settings = some st) :
    ∀ (l : List (String × SettingValue)),
      (∀ kv ∈ l, objGet st kv.1 = some kv.2) →
      l.foldl (fun acc kv => setSetting kv.1 kv.2 acc) s = s := by
  intro l
  induction l with
  | nil => intro _; rfl
  | cons kv rest ih =>
      intro hl
      have h1 : setSetting kv.1 kv.2 s = s := by
        unfold setSetting getSettings
        rw [hset]
        show { s with settings := some (objSet st kv.1 kv.2) } = s
        rw [objSet_of_objGet_eq st kv.1 kv.2 (hl kv (by simp)), ← hset]
      rw [List.foldl_cons, h1]
      exact ih (fun kv' h' => hl kv' (List.mem_cons_of_mem kv h'))

/-- Claim C10: for every store in which a user id, marks map, settings map
and last-sync time are present (and, as for every JS object, the settings
keys are distinct), importData applied to exportData of that store returns
true and leaves the store unchanged: same user id, same marks, every
settings entry, same last-sync instant. -/
theorem importData_exportData (s : Store) (u : String)
    (m : List (String × Nat)) (st : List (String × SettingValue)) (t : Nat)
    (hu : s.userId = some u) (hm : s.userMarks = some m)
    (hs : s.settings = some st) (ht : s.lastSync = some t)
    (hnd : (st.map Prod.fst).Nodup) :
    importData (exportData s) s = (true, s) := by
  unfold importData exportData
  dsimp only
  have h1 :
      (match getUserId s with
       | some u => if u = "" then s else setUserId u s
       | none => s) = s := by
    unfold getUserId
    rw [hu]
    by_cases hue : u = ""
    · simp [hue]
    · simp only [if_neg hue]
      unfold setUserId
      rw [← hu]
  rw [h1]
  have h2 : setUserMarks (getUserMarks s) s = s := by
    unfold setUserMarks getUserMarks
    rw [hm]
    show { s with userMarks := some m } = s
    rw [← hm]
  rw [h2]
  have h3 :
      (getSettings s).foldl (fun acc kv => setSetting kv.1 kv.2 acc) s
        = s := by
    have hgs : getSettings s = st := by
      unfold getSettings
      rw [hs]
      rfl
    rw [hgs]
    exact foldl_setSetting_self s st hs st (objGet_mem_of_nodup st hnd)
  rw [h3]
  have h4 :
      (match getLastSyncTime s with
       | some t => setLastSyncTime t s
       | none => s) = s := by
    unfold getLastSyncTime
    rw [ht]
    show setLastSyncTime t s = s
    unfold setLastSyncTime
    rw [← ht]
  rw [h4]

/-- Witness for claim C10 at a concrete fully-populated store. -/
theorem importData_exportData_witness :
    ((⟨some "alice", some [("p1-1", 5)], some [("theme", .str "dark")],
        none, some 99⟩ : Store).userId = some "alice") ∧
    importData
        (exportData ⟨some "alice", some [("p1-1", 5)],
          some [("theme", .str "dark")], none, some 99⟩)
        ⟨some "alice", some [("p1-1", 5)], some [("theme", .str "dark")],
          none, some 99⟩ =
      (true,
       ⟨some "alice", some [("p1-1", 5)], some [("theme", .str "dark")],
         none, some 99⟩) :=
  ⟨rfl,
   importData_exportData
     ⟨some "alice", some [("p1-1", 5)], some [("theme", .str "dark")],
       none, some 99⟩
     "alice" [("p1-1", 5)] [("theme", .str "dark")] 99
     rfl rfl rfl rfl (by decide)⟩
